import Mathlib

/-!
Verification of the rate-controlled query dispatcher in `src/App.jsx`
(React autocomplete component with debounce and throttle control).

The embedding models:
* the Search Executor `performSearch` (App.jsx 63-90) as a pure state
  transformer on `SearchState` (each `setX` call is a record update);
* the debounce helper (App.jsx 193-203) as a pending-timer state
  `Option (fireTime, arg)` with cancel-and-reschedule on every call;
* the throttle helper (App.jsx 220-233) as a flag-with-reset-time state
  `Option resetTime`: the scheduled `inThrottle = false` reset at
  `fireTime + limit` is applied lazily at the next call, with a call
  arriving exactly at the reset instant treated as un-throttled;
* the coordinator effect (App.jsx 136-147) as `sysStep`, acting on the
  combined state (`lastExecutionRef`, pending debounce timer, throttle
  flag) once per input-change event.

Times are naturals (milliseconds); `now - lastExec > 800` uses truncated
natural subtraction, which agrees with the JavaScript comparison for all
monotone event times (and indeed for all naturals, since both sides are
false when `now ≤ lastExec`).
-/

namespace AutocompleteSearch

/-- Published search state: the three `useState` cells `results`,
`message`, `isSearching` of the component (App.jsx 38, 44, 50). -/
structure SearchState where
  results : List String
  message : String
  busy : Bool
deriving Repr, DecidableEq

/-- The fixed no-match notice set at App.jsx 84. -/
def noMatchMessage : String := "Nem található egyező felhasználónév."

/-- The module-level candidate array `usernames` (App.jsx 7-16). -/
def usernames : List String :=
  ["daniel0113", "rebeka", "kriszta", "dani01", "admin@dan0.pw",
   "tesztuser", "tesztvagyok", "Krisztián01"]

/-- The candidate set the specification's executor test cases (§8.6) are
stated against. -/
def specCandidates : List String :=
  ["daniel0113", "rebeka", "kriszta", "Krisztián01"]

/-- JavaScript `String.prototype.toLowerCase`, modelled per character.
On the strings this program handles only ASCII letters are affected (the
sole non-ASCII character in the candidate set, `á`, is already
lowercase, and JavaScript leaves it unchanged as well). -/
def jsToLower (s : String) : String := String.mk (s.data.map Char.toLower)

/-- JavaScript `String.prototype.startsWith`, modelled as a character
prefix test. -/
def jsStartsWith (s pre : String) : Bool := pre.data.isPrefixOf s.data

/-- JavaScript `String.prototype.trim`: drop leading and trailing
whitespace. -/
def jsTrim (s : String) : String :=
  String.mk
    (((s.data.dropWhile Char.isWhitespace).reverse.dropWhile
      Char.isWhitespace).reverse)

/-- The case-insensitive prefix filter of App.jsx 77:
`usernames.filter(u => u.toLowerCase().startsWith(term.toLowerCase()))`. -/
def searchFilter (cands : List String) (term : String) : List String :=
  cands.filter fun u => jsStartsWith (jsToLower u) (jsToLower term)

/-- `performSearch` (App.jsx 63-90) as a state transformer: each
`setIsSearching` / `setMessage` / `setResults` call is a record update on
the current published state, applied in source order. -/
def performSearchFrom (cands : List String) (term : String)
    (st : SearchState) : SearchState :=
  let st := { st with busy := true }
  if jsTrim term = "" then
    let st := { st with message := "" }
    let st := { st with results := [] }
    { st with busy := false }
  else
    let found := searchFilter cands term
    if found.length > 0 then
      let st := { st with results := found }
      let st := { st with message := "" }
      { st with busy := false }
    else
      let st := { st with message := noMatchMessage }
      let st := { st with results := [] }
      { st with busy := false }

/-- The sequence of published states produced by one `performSearch`
execution (the state after each successive `setX` call, App.jsx 63-90). -/
def performSearchStates (cands : List String) (term : String)
    (st : SearchState) : List SearchState :=
  let s1 := { st with busy := true }
  if jsTrim term = "" then
    let s2 := { s1 with message := "" }
    let s3 := { s2 with results := [] }
    [s1, s2, s3, { s3 with busy := false }]
  else
    let found := searchFilter cands term
    if found.length > 0 then
      let s2 := { s1 with results := found }
      let s3 := { s2 with message := "" }
      [s1, s2, s3, { s3 with busy := false }]
    else
      let s2 := { s1 with message := noMatchMessage }
      let s3 := { s2 with results := [] }
      [s1, s2, s3, { s3 with busy := false }]

/-- The state published by one complete `performSearch` run (independent
of the prior published state, since every field is overwritten). -/
def performSearch (cands : List String) (term : String) : SearchState :=
  performSearchFrom cands term ⟨[], "", false⟩

/-- C7: Against the spec's four-candidate set, `execute("dan")` publishes
`["daniel0113"]` with empty message; `execute("kri")` publishes
`["kriszta", "Krisztián01"]` (case-insensitive, original casing and
candidate order preserved) with empty message; `execute("zzz")` publishes
empty results with the fixed no-match notice; `execute("")` and
`execute("   ")` publish empty results with message `""`. -/
theorem executor_concrete_cases :
    performSearch specCandidates "dan" = ⟨["daniel0113"], "", false⟩ ∧
    performSearch specCandidates "kri" = ⟨["kriszta", "Krisztián01"], "", false⟩ ∧
    performSearch specCandidates "zzz" = ⟨[], noMatchMessage, false⟩ ∧
    performSearch specCandidates "" = ⟨[], "", false⟩ ∧
    performSearch specCandidates "   " = ⟨[], "", false⟩ := by
  refine ⟨?_, ?_, ?_, ?_, ?_⟩ <;> rfl

/-- C8: After every completed execution, the published state has
`busy = false` and its message is non-empty only when the results are
empty and the trimmed term is non-empty; `busy` is `true` in every
intermediate published state and returns to `false` in the final one. -/
theorem executor_state_invariant (cands : List String) (term : String)
    (st : SearchState) :
    (performSearchFrom cands term st).busy = false ∧
    ((performSearchFrom cands term st).message ≠ "" →
      (performSearchFrom cands term st).results = [] ∧ jsTrim term ≠ "") ∧
    (performSearchStates cands term st).getLast? =
      some (performSearchFrom cands term st) ∧
    (∀ s ∈ (performSearchStates cands term st).dropLast, s.busy = true) := by
  simp only [performSearchFrom, performSearchStates]
  split_ifs with h1 h2 <;> simp_all [noMatchMessage]

/-- Closed instance of `executor_state_invariant` at a concrete term and
candidate set. -/
theorem executor_state_invariant_witness :
    (performSearchFrom usernames "zzz" ⟨[], "", false⟩).busy = false ∧
    ((performSearchFrom usernames "zzz" ⟨[], "", false⟩).message ≠ "" →
      (performSearchFrom usernames "zzz" ⟨[], "", false⟩).results = [] ∧
        jsTrim "zzz" ≠ "") := by
  have h := executor_state_invariant usernames "zzz" ⟨[], "", false⟩
  exact ⟨h.1, h.2.1⟩

/-- C9: The executor is pure with respect to its published state: the
final state after one run does not depend on the previously published
state, and immediately re-running the same term over the same candidate
set republishes the identical state. -/
theorem executor_pure (cands : List String) (term : String)
    (st st' : SearchState) :
    performSearchFrom cands term st = performSearchFrom cands term st' ∧
    performSearchFrom cands term (performSearchFrom cands term st) =
      performSearchFrom cands term st := by
  simp [performSearchFrom]

/-- C10: The deployed candidate array has 8 entries, among them
`"dani01"` and `"admin@dan0.pw"`; over it, `execute("dan")` publishes the
two matches `["daniel0113", "dani01"]` in candidate order with empty
message, and `execute("kri")` still publishes
`["kriszta", "Krisztián01"]`. -/
theorem deployed_candidates :
    usernames.length = 8 ∧
    "dani01" ∈ usernames ∧ "admin@dan0.pw" ∈ usernames ∧
    performSearch usernames "dan" = ⟨["daniel0113", "dani01"], "", false⟩ ∧
    performSearch usernames "kri" = ⟨["kriszta", "Krisztián01"], "", false⟩ := by
  refine ⟨rfl, ?_, ?_, ?_, ?_⟩ <;> decide

/-! ## Debounce helper (App.jsx 193-203)

The closure variable `timeoutId` is the pending-timer state: `none` when
no timer is outstanding, `some (ft, a)` for a timer that will invoke the
wrapped target with argument `a` at instant `ft`.  A call at instant
`now` first accounts for a pending timer that already expired (it fired
at `ft ≤ now`, before this turn; the subsequent `clearTimeout` is a
no-op on it), then unconditionally schedules `some (now + delay, a)`. -/

/-- One call of the debounced function at instant `now` with argument
`a`: returns the new pending timer and the fire the old timer produced
before this turn, if it had already expired. -/
def debStep {α : Type} (delay : Nat) (pend : Option (Nat × α)) (now : Nat)
    (a : α) : Option (Nat × α) × Option (Nat × α) :=
  match pend with
  | some (ft, b) =>
      (some (now + delay, a), if ft ≤ now then some (ft, b) else none)
  | none => (some (now + delay, a), none)

/-- Run the debounced function over a time-stamped call sequence,
collecting the fires that occur between calls. -/
def debRun {α : Type} (delay : Nat) (pend : Option (Nat × α)) :
    List (Nat × α) → Option (Nat × α) × List (Nat × α)
  | [] => (pend, [])
  | (t, a) :: rest =>
      let s := debStep delay pend t a
      let r := debRun delay s.1 rest
      (r.1, s.2.toList ++ r.2)

/-- A pending timer that is never cancelled eventually fires. -/
def debFlush {α : Type} : Option (Nat × α) → List (Nat × α)
  | some p => [p]
  | none => []

/-- All fires produced by a call sequence against a fresh debounced
function, including the final timer left pending after the last call. -/
def debAllFires {α : Type} (delay : Nat) (calls : List (Nat × α)) :
    List (Nat × α) :=
  let r := debRun delay none calls
  r.2 ++ debFlush r.1

/-! ## Throttle helper (App.jsx 220-233)

The closure variable `inThrottle` together with its scheduled reset is
the state `Option Nat`: `none` means the flag is clear, `some rt` means
the flag was set by a fire at `rt - limit` and the scheduled
`inThrottle = false` callback runs at instant `rt`.  The reset is
applied lazily at the next call; a call arriving exactly at `rt` sees
the flag already cleared (the reset callback is processed first). -/

/-- One call of the throttled function at instant `now`: fires and
re-arms the flag when the flag is clear (or its reset instant has been
reached), drops the call otherwise. -/
def thrCall {α : Type} (limit : Nat) (st : Option Nat) (now : Nat)
    (a : α) : Option Nat × Option (Nat × α) :=
  match st with
  | some rt =>
      if now < rt then (some rt, none)
      else (some (now + limit), some (now, a))
  | none => (some (now + limit), some (now, a))

/-- Run the throttled function over a time-stamped call sequence,
collecting the fires. -/
def thrRun {α : Type} (limit : Nat) (st : Option Nat) :
    List (Nat × α) → Option Nat × List (Nat × α)
  | [] => (st, [])
  | (t, a) :: rest =>
      let s := thrCall limit st t a
      let r := thrRun limit s.1 rest
      (r.1, s.2.toList ++ r.2)

lemma debRun_no_gap {α : Type} (delay : Nat) :
    ∀ (rest : List (Nat × α)) (c : Nat × α),
      List.Chain (fun p q => p.1 ≤ q.1 ∧ q.1 < p.1 + delay) c rest →
      debRun delay (some (c.1 + delay, c.2)) rest =
        (some ((rest.getLastD c).1 + delay, (rest.getLastD c).2), []) := by
  intro rest
  induction rest with
  | nil => intro c _; simp [debRun]
  | cons d rest ih =>
      intro c hchain
      cases hchain with
      | cons hcd hch =>
          have hnf : ¬ c.1 + delay ≤ d.1 := by omega
          have hlast : (d :: rest).getLastD c = rest.getLastD d := by
            cases rest <;> simp [List.getLastD]
          rw [hlast]
          simp [debRun, debStep, hnf, ih d hch]

lemma thrRun_spaced {α : Type} (limit : Nat) :
    ∀ (calls : List (Nat × α)) (st : Option Nat),
      (∀ rt, st = some rt → ∀ f ∈ (thrRun limit st calls).2, rt ≤ f.1) ∧
      List.Chain' (fun p q => p.1 + limit ≤ q.1) (thrRun limit st calls).2 := by
  intro calls
  induction calls with
  | nil => intro st; simp [thrRun]
  | cons c rest ih =>
      intro st
      obtain ⟨t, a⟩ := c
      match st with
      | none =>
          have h := ih (some (t + limit))
          constructor
          · intro rt hrt; cases hrt
          · simp only [thrRun, thrCall, Option.toList_some, List.cons_append,
              List.nil_append]
            rw [List.chain'_cons']
            refine ⟨?_, h.2⟩
            intro b hb
            have hb' : b ∈ (thrRun limit (some (t + limit)) rest).2 :=
              List.mem_of_mem_head? hb
            exact h.1 (t + limit) rfl b hb'
      | some rt =>
          by_cases hlt : t < rt
          · have h := ih (some rt)
            constructor
            · intro rt' hrt' f hf
              cases hrt'
              simp only [thrRun, thrCall, if_pos hlt, Option.toList_none,
                List.nil_append] at hf
              exact h.1 rt rfl f hf
            · simp only [thrRun, thrCall, if_pos hlt, Option.toList_none,
                List.nil_append]
              exact h.2
          · have h := ih (some (t + limit))
            have hfirst : ∀ f ∈ (thrRun limit (some (t + limit)) rest).2,
                t + limit ≤ f.1 := h.1 (t + limit) rfl
            constructor
            · intro rt' hrt' f hf
              cases hrt'
              simp only [thrRun, thrCall, if_neg hlt, Option.toList_some,
                List.cons_append, List.nil_append, List.mem_cons] at hf
              rcases hf with hf | hf
              · subst hf; omega
              · have := hfirst f hf; omega
            · simp only [thrRun, thrCall, if_neg hlt, Option.toList_some,
                List.cons_append, List.nil_append]
              rw [List.chain'_cons']
              refine ⟨?_, h.2⟩
              intro b hb
              exact hfirst b (List.mem_of_mem_head? hb)

/-- C3: For any sequence of one or more calls to the debounced function
in which consecutive calls are in time order and separated by less than
`delay`, the wrapped target fires exactly once over the whole run, with
the argument of the last call, at instant (last call time + `delay`);
no earlier call produces a fire. -/
theorem debounce_coalescing (delay : Nat) (c : Nat × String)
    (rest : List (Nat × String))
    (hchain : List.Chain (fun p q => p.1 ≤ q.1 ∧ q.1 < p.1 + delay) c rest) :
    debAllFires delay (c :: rest) =
      [((rest.getLastD c).1 + delay, (rest.getLastD c).2)] := by
  obtain ⟨t, a⟩ := c
  simp [debAllFires, debRun, debStep, debRun_no_gap delay rest (t, a) hchain,
    debFlush]

/-- Closed instance of `debounce_coalescing`: three calls 100-150 ms
apart with `delay = 300` produce the single fire `(550, "abc")`. -/
theorem debounce_coalescing_witness :
    debAllFires 300 [(0, "a"), (100, "ab"), (250, "abc")] = [(550, "abc")] := by
  have h := debounce_coalescing 300 (0, "a") [(100, "ab"), (250, "abc")]
    (.cons ⟨by decide, by decide⟩ (.cons ⟨by decide, by decide⟩ .nil))
  simpa using h

/-- C4: For every call sequence against a fresh throttled function, the
fires are spaced at least `limit` apart (at most one fire per sliding
`limit`-window); a call arriving while the flag is set is dropped with
the state unchanged and no queued invocation; a call arriving at or
after the flag's reset instant fires immediately and re-arms the flag
(the exact reset boundary is inclusive). -/
theorem throttle_leading_edge (limit : Nat) (calls : List (Nat × String)) :
    List.Chain' (fun p q => p.1 + limit ≤ q.1) (thrRun limit none calls).2 ∧
    (∀ rt now a, now < rt →
      thrCall limit (some rt) now (a : String) = (some rt, none)) ∧
    (∀ rt now a, rt ≤ now →
      thrCall limit (some rt) now (a : String) =
        (some (now + limit), some (now, a))) := by
  refine ⟨(thrRun_spaced limit calls none).2, ?_, ?_⟩
  · intro rt now a h
    simp [thrCall, h]
  · intro rt now a h
    simp [thrCall, Nat.not_lt.mpr h]

/-- Closed instance of `throttle_leading_edge`: with `limit = 800`, the
call sequence at instants 0, 100, 800 produces spaced fires, the call at
100 is dropped against a flag resetting at 800, and the call exactly at
the reset instant 800 fires. -/
theorem throttle_leading_edge_witness :
    List.Chain' (fun p q => p.1 + 800 ≤ q.1)
      (thrRun 800 none [(0, "a"), (100, "b"), (800, "c")]).2 ∧
    thrCall 800 (some 800) 100 "b" = (some 800, none) ∧
    thrCall 800 (some 800) 800 "c" = (some 1600, some (800, "c")) :=
  ⟨(throttle_leading_edge 800 [(0, "a"), (100, "b"), (800, "c")]).1,
   (throttle_leading_edge 800 []).2.1 800 100 "b" (by decide),
   (throttle_leading_edge 800 []).2.2 800 800 "c" (by decide)⟩

/-! ## Dispatch coordinator (App.jsx 136-147)

The `useEffect` body runs once per `searchTerm` change: it always calls
`debouncedSearch(searchTerm)` and, when
`Date.now() - lastExecutionRef.current > 800 || !searchTerm.trim()`,
also calls `throttledSearch(searchTerm)` and sets
`lastExecutionRef.current = Date.now()`. -/

/-- `debounce(..., 300)` at App.jsx 105. -/
def debounceDelayMs : Nat := 300

/-- `throttle(..., 800)` at App.jsx 120 (also the literal `800` compared
against at App.jsx 143). -/
def throttleLimitMs : Nat := 800

/-- Combined mutable state of one component instance: `lastExecutionRef`
(App.jsx 56), the debounce closure's pending timer, and the throttle
closure's flag/reset state. -/
structure SysState where
  lastExec : Nat
  deb : Option (Nat × String)
  thr : Option Nat
deriving Repr, DecidableEq

/-- State at mount: `useRef(0)`, no pending timer, flag clear. -/
def initState : SysState := ⟨0, none, none⟩

/-- The coordinator gate of App.jsx 143:
`now - lastExecutionRef.current > 800 || !searchTerm.trim()`. -/
abbrev coordForwards (s : SysState) (now : Nat) (term : String) : Prop :=
  now - s.lastExec > throttleLimitMs ∨ jsTrim term = ""

/-- One input-change event processed at instant `now`: returns the new
state, the debounce-path fire whose timer had already expired before
this turn (a deferred invocation, never synchronous with the event),
and the throttle-path fire of this turn, if any. -/
def sysStep (s : SysState) (now : Nat) (term : String) :
    SysState × Option (Nat × String) × Option (Nat × String) :=
  let d := debStep debounceDelayMs s.deb now term
  if coordForwards s now term then
    let tc := thrCall throttleLimitMs s.thr now term
    (⟨now, d.1, tc.1⟩, d.2, tc.2)
  else
    (⟨s.lastExec, d.1, s.thr⟩, d.2, none)

/-- The effect at App.jsx 136-147 returns no cleanup function and the
debounce helper exposes no cancel operation, so unmounting the component
leaves the instance state — in particular any pending debounce timer —
untouched. -/
def unmountCleanup (s : SysState) : SysState := s

/-- C5: Every input-change reschedules the debounce timer for
(now + 300) with the current term; the throttle-wrapped path is entered
exactly when the coordinator gate (elapsed > 800 or trimmed-empty term)
passes, in which case `lastExecutionRef` becomes `now` and the throttle
state and fire are those of one `throttle` call; when the gate fails
nothing else changes and no throttle-path fire occurs this turn; from
the mount state, any first event later than 800 ms fires immediately. -/
theorem coordinator_dispatch (s : SysState) (now : Nat) (term : String) :
    (sysStep s now term).1.deb = some (now + debounceDelayMs, term) ∧
    (coordForwards s now term →
      (sysStep s now term).1.lastExec = now ∧
      (sysStep s now term).1.thr = (thrCall throttleLimitMs s.thr now term).1 ∧
      (sysStep s now term).2.2 = (thrCall throttleLimitMs s.thr now term).2) ∧
    (¬ coordForwards s now term →
      (sysStep s now term).1.lastExec = s.lastExec ∧
      (sysStep s now term).1.thr = s.thr ∧
      (sysStep s now term).2.2 = none) ∧
    (throttleLimitMs < now →
      (sysStep initState now term).2.2 = some (now, term)) := by
  refine ⟨?_, ?_, ?_, ?_⟩
  · rcases s with ⟨le, deb, thr⟩
    rcases deb with _ | ⟨ft, b⟩ <;>
      simp [sysStep, debStep] <;> split <;> rfl
  · intro h
    simp [sysStep, if_pos h]
  · intro h
    simp [sysStep, if_neg h]
  · intro h
    unfold sysStep initState
    split
    · simp [thrCall]
    · next hng =>
        refine absurd (Or.inl ?_) hng
        simpa using h

/-- Closed instance of `coordinator_dispatch` at the mount state and a
first keystroke at 1000 ms. -/
theorem coordinator_dispatch_witness :
    (sysStep initState 1000 "dan").1.deb = some (1300, "dan") ∧
    (sysStep initState 1000 "dan").1.lastExec = 1000 ∧
    (sysStep initState 1000 "dan").2.2 = some (1000, "dan") := by
  have h := coordinator_dispatch initState 1000 "dan"
  have hg : coordForwards initState 1000 "dan" := by left; decide
  exact ⟨h.1, (h.2.1 hg).1, h.2.2.2 (by norm_num [throttleLimitMs])⟩

/-- C1 counterexample: from the mount state, a keystroke `"a"` at
1000 ms fires and arms the throttle until 1800 ms; clearing the field at
1100 ms (term `""`, which trims to empty) produces no synchronous
invocation of the search executor at all — the throttle-path call is
dropped by the `inThrottle` flag and the debounce path is deferred — so
an empty-term event does not always reach the executor in its own
turn. -/
theorem empty_term_dropped_when_suppressed :
    jsTrim "" = "" ∧
    (sysStep (sysStep initState 1000 "a").1 1100 "").2.1 = none ∧
    (sysStep (sysStep initState 1000 "a").1 1100 "").2.2 = none := by
  refine ⟨rfl, ?_, ?_⟩ <;> rfl

/-- C1 amended: an input-change whose term trims to empty always passes
the coordinator gate — the throttle-wrapped function is called and
`lastExecutionRef` is set to `now` — but the search executor is invoked
in the same turn only if the throttle flag is clear (reset instant
reached); while the flag is set the call is dropped. -/
theorem empty_term_gate (s : SysState) (now : Nat) (term : String)
    (hterm : jsTrim term = "") :
    (sysStep s now term).1.lastExec = now ∧
    (sysStep s now term).2.2 =
      (match s.thr with
        | some rt => if now < rt then none else some (now, term)
        | none => some (now, term)) := by
  have hg : coordForwards s now term := Or.inr hterm
  rcases s with ⟨le, deb, thr⟩
  rcases thr with _ | rt <;> simp [sysStep, if_pos hg, thrCall]
  split <;> rfl

/-- Closed instance of `empty_term_gate`: a cleared field at 1100 ms
against a throttle flag armed until 1800 ms updates `lastExecutionRef`
but produces no fire. -/
theorem empty_term_gate_witness :
    (sysStep ⟨1000, none, some 1800⟩ 1100 "").1.lastExec = 1100 ∧
    (sysStep ⟨1000, none, some 1800⟩ 1100 "").2.2 = none := by
  have h := empty_term_gate ⟨1000, none, some 1800⟩ 1100 "" rfl
  exact ⟨h.1, by rw [h.2]; rfl⟩


/-- C6 counterexample: in the run keystroke `"a"` at 1000 ms then clear
at 1100 ms, the second event's throttle-path call is dropped (no
executor invocation via that path), yet `lastExecutionRef` is updated
from 1000 to 1100 — so it does not record the instant of the last
successful (non-suppressed) invocation. -/
theorem lastExec_updated_on_dropped_call :
    (sysStep initState 1000 "a").2.2 = some (1000, "a") ∧
    (sysStep initState 1000 "a").1.lastExec = 1000 ∧
    (sysStep (sysStep initState 1000 "a").1 1100 "").2.2 = none ∧
    (sysStep (sysStep initState 1000 "a").1 1100 "").1.lastExec = 1100 := by
  refine ⟨?_, ?_, ?_, ?_⟩ <;> rfl

/-- C6 amended: `lastExecutionRef` is set to `now` exactly when the
coordinator gate passes — including empty-term events whose throttle
call is dropped by the flag — and is left unchanged otherwise; in
particular every turn that does produce a throttle-path fire updates
it. -/
theorem lastExec_characterisation (s : SysState) (now : Nat)
    (term : String) :
    (sysStep s now term).1.lastExec =
      (if coordForwards s now term then now else s.lastExec) ∧
    ((sysStep s now term).2.2.isSome → (sysStep s now term).1.lastExec = now) := by
  unfold sysStep
  split <;> simp

/-- Closed instance of `lastExec_characterisation` at a first keystroke
at 900 ms, whose fire does update `lastExecutionRef`. -/
theorem lastExec_characterisation_witness :
    (sysStep initState 900 "x").2.2.isSome = true ∧
    (sysStep initState 900 "x").1.lastExec = 900 :=
  ⟨rfl, (lastExec_characterisation initState 900 "x").2 rfl⟩

/-- C2 (code behaviour at the failing input): a keystroke at 1000 ms
schedules the debounce timer for 1300 ms; unmounting at 1100 ms runs no
cleanup — `unmountCleanup` is the identity because the effect returns
no cleanup function — so the pending timer survives teardown and fires
the target at 1300 ms, one invocation after teardown instead of the
required zero. -/
theorem teardown_timer_not_cancelled :
    (sysStep initState 1000 "hello").1.deb = some (1300, "hello") ∧
    unmountCleanup (sysStep initState 1000 "hello").1 =
      (sysStep initState 1000 "hello").1 ∧
    debFlush (unmountCleanup (sysStep initState 1000 "hello").1).deb =
      [(1300, "hello")] ∧
    (1100 : Nat) < 1300 := by
  refine ⟨rfl, rfl, rfl, by decide⟩

end AutocompleteSearch
